import Mathlib

/-!
Shallow embedding of `src/serializer/log/lba/lba_list.cc`: the LBA directory of
a log-structured storage engine.  The orchestrator (`lba_list_t` and its three
asynchronous state machines `lba_start_fsm_t`, `lba_syncer_t`, `gc_fsm_t`) is
translated from the source file.  Its external collaborators — the in-memory
Offset Table (`in_memory_index_t`), the on-disk Durable Log Snapshot
(`lba_disk_structure_t`), the reader/writer Sequencing Lock (`rwi_lock_t`) and
the metablock anchor — are not part of the repository snapshot, so they are
modelled from the specification at the level of their interface, as documented
on each definition.

Asynchronous ("sync-or-async") collaborator calls are modelled by an explicit
environment Boolean choosing the synchronous or the deferred path, and each
protocol function computes the state at the moment the protocol completes,
together with a trace of observable events recording the order of the steps.
Assertion failures and null-pointer dereferences are modelled by `Except`.
-/

namespace LbaSpec

/-- Modelled from the spec: the tombstone sentinel (`DELETE_BLOCK`), a
distinguished offset value denoting "this id has been deleted", distinct from
any valid (nonnegative) offset. -/
def DELETE_BLOCK : Int := -1

/-- Modelled from the spec: the Offset Table collaborator (`in_memory_index_t`),
an authoritative in-memory mapping from every block id to its current offset or
tombstone, which also generates fresh ids and tracks the maximum assigned id.
Ids not yet written are in the tombstone (deleted) state. -/
structure in_memory_index_t where
  next_id : Nat
  tbl : Nat → Int

namespace in_memory_index_t

/-- Modelled from the spec: a fresh, empty Offset Table. -/
def init : in_memory_index_t := ⟨0, fun _ => DELETE_BLOCK⟩

/-- Modelled from the spec: return a fresh, previously-unused id. -/
def gen_block_id (i : in_memory_index_t) : Nat × in_memory_index_t :=
  (i.next_id, { i with next_id := i.next_id + 1 })

/-- Modelled from the spec: the exclusive upper bound of assigned ids. -/
def max_block_id (i : in_memory_index_t) : Nat := i.next_id

/-- Modelled from the spec: current offset (or tombstone) of a block id. -/
def get_block_offset (i : in_memory_index_t) (b : Nat) : Int := i.tbl b

/-- Modelled from the spec: synchronously update one mapping; the table also
tracks the maximum assigned id. -/
def set_block_offset (i : in_memory_index_t) (b : Nat) (off : Int) : in_memory_index_t :=
  { next_id := max i.next_id (b + 1)
    tbl := fun x => if x = b then off else i.tbl x }

/-- Modelled from the spec: mark one id as deleted (tombstone). -/
def delete_block (i : in_memory_index_t) (b : Nat) : in_memory_index_t :=
  { i with tbl := fun x => if x = b then DELETE_BLOCK else i.tbl x }

end in_memory_index_t

/-- Modelled from the spec: one generation of the on-disk LBA log
(`lba_disk_structure_t`): the append-only sequence of (id, offset) entries plus
a durability watermark `synced` — the number of leading entries that have been
flushed to durable storage. -/
structure lba_disk_structure_t where
  entries : List (Nat × Int)
  synced : Nat
  deriving DecidableEq

namespace lba_disk_structure_t

/-- Modelled from the spec: synchronously create a new, empty generation. -/
def create : lba_disk_structure_t := ⟨[], 0⟩

/-- Modelled from the spec: append one entry (buffered, not yet durable). -/
def add_entry (d : lba_disk_structure_t) (b : Nat) (off : Int) : lba_disk_structure_t :=
  { d with entries := d.entries ++ [(b, off)] }

/-- Modelled from the spec: the effect of a completed flush — every entry
appended so far becomes durable. -/
def flush (d : lba_disk_structure_t) : lba_disk_structure_t :=
  { d with synced := d.entries.length }

/-- Modelled from the spec: the durable content of this generation, i.e. what a
crash-recovery load would observe — exactly the flushed entries. -/
def durable_part (d : lba_disk_structure_t) : lba_disk_structure_t :=
  ⟨d.entries.take d.synced, (d.entries.take d.synced).length⟩

end lba_disk_structure_t

/-- Replaying one LBA entry over a table: later entries supersede earlier. -/
def replayEntry (t : Nat → Int) (e : Nat × Int) : Nat → Int :=
  fun x => if x = e.1 then e.2 else t x

/-- Modelled from the spec: reconstructing a mapping by replaying a log of
entries in order, starting from the all-tombstone table. -/
def replayEntries (es : List (Nat × Int)) : Nat → Int :=
  es.foldl replayEntry (fun _ => DELETE_BLOCK)

/-- Modelled from the spec: the maximum assigned id recoverable from a log. -/
def nextOfEntries (es : List (Nat × Int)) : Nat :=
  es.foldl (fun n e => max n (e.1 + 1)) 0

/-- Modelled from the spec: constructing an Offset Table from a loaded Durable
Log Snapshot by replaying its entries (`new in_memory_index_t(disk_structure)`). -/
def in_memory_index_t.ofDisk (d : lba_disk_structure_t) : in_memory_index_t :=
  ⟨nextOfEntries d.entries, replayEntries d.entries⟩

/-- Lock access modes of the Sequencing Lock. -/
inductive access_t
  | rwi_read
  | rwi_write
  deriving DecidableEq

/-- Modelled from the spec: the Sequencing Lock (`rwi_lock_t`), a single
reader/writer lock with asynchronous acquisition: a request is granted
immediately when compatible and nothing is queued, otherwise it is queued and
granted later, in order, when holders release. -/
structure rwi_lock_t where
  readers : Nat
  writerHeld : Bool
  queue : List access_t
  deriving DecidableEq

namespace rwi_lock_t

/-- Whether a request can be granted immediately. -/
def canGrant (l : rwi_lock_t) : access_t → Bool
  | .rwi_read => !l.writerHeld && l.queue.isEmpty
  | .rwi_write => !l.writerHeld && l.readers == 0 && l.queue.isEmpty

/-- Record an immediately-granted request. -/
def grant (l : rwi_lock_t) : access_t → rwi_lock_t
  | .rwi_read => { l with readers := l.readers + 1 }
  | .rwi_write => { l with writerHeld := true }

/-- Modelled from the spec: acquire in the given mode; returns the new lock
state and whether the request was granted immediately (queued otherwise). -/
def lock (l : rwi_lock_t) (m : access_t) : rwi_lock_t × Bool :=
  if l.canGrant m then (l.grant m, true)
  else ({ l with queue := l.queue ++ [m] }, false)

/-- Grant queued requests from the front while they are compatible, starting
from a released state with `r` remaining readers and no writer. -/
def wake : Nat → List access_t → rwi_lock_t
  | r, [] => ⟨r, false, []⟩
  | r, .rwi_read :: rest => wake (r + 1) rest
  | 0, .rwi_write :: rest => ⟨0, true, rest⟩
  | r + 1, .rwi_write :: rest => ⟨r + 1, false, .rwi_write :: rest⟩

/-- Modelled from the spec: release one held acquisition and hand the lock to
queued waiters as far as possible. -/
def unlock (l : rwi_lock_t) : rwi_lock_t :=
  if l.writerHeld then wake 0 l.queue else wake (l.readers - 1) l.queue

end rwi_lock_t

/-- Modelled from the spec: the durable anchor (`metablock_mixin_t`) produced by
`prepare_metablock` and consumed by startup; it identifies the durable content
of the current Durable Log Snapshot. -/
structure metablock_mixin_t where
  snapshot : lba_disk_structure_t
  deriving DecidableEq

/-- Lifecycle states of the LBA directory, from `lba_list.hpp` usage in the
source: `unstarted → starting_up → ready → shut_down`. -/
inductive lba_state
  | state_unstarted
  | state_starting_up
  | state_ready
  | state_shut_down
  deriving DecidableEq

/-- Contract failures: a failed `assert`, or dereferencing a null pointer. -/
inductive crash
  | assertFail
  | nullDeref
  deriving DecidableEq

/-- Observable events of the protocols, used to state ordering properties. -/
inductive ev
  | upd_index (b : Nat) (off : Int)
  | del_index (b : Nat)
  | append (b : Nat) (off : Int)
  | acquire (m : access_t)
  | release
  | flush_start
  | flush_done
  | destroy_start
  | destroy_done
  | create_new
  | callback_invoked
  deriving DecidableEq

/-- The LBA directory (`lba_list_t`).  `destroying` is model bookkeeping: the
old generations whose asynchronous, fire-and-forget destruction has been
initiated but has not completed. -/
structure lba_list_t where
  state : lba_state
  in_memory_index : Option in_memory_index_t
  disk_structure : Option lba_disk_structure_t
  disk_structure_lock : rwi_lock_t
  destroying : List lba_disk_structure_t

namespace lba_list_t

/-- The constructor `lba_list_t::lba_list_t`: state unstarted, null index and
null disk structure, free lock. -/
def new : lba_list_t :=
  ⟨.state_unstarted, none, none, ⟨0, false, []⟩, []⟩

/-- The in-memory table of the directory, as a total view (ids of a missing
table read as tombstones; only used on states whose table is installed). -/
def memTable (s : lba_list_t) : Nat → Int :=
  match s.in_memory_index with
  | some i => i.tbl
  | none => fun _ => DELETE_BLOCK

/-- The fresh-creation form of `lba_list_t::start` (new database): asserts
unstarted, then synchronously installs an empty Offset Table and an empty
Durable Log Snapshot and becomes ready. -/
def start_new (s : lba_list_t) : Except crash lba_list_t :=
  if s.state = .state_unstarted then
    .ok { s with
      in_memory_index := some in_memory_index_t.init
      disk_structure := some lba_disk_structure_t.create
      state := .state_ready }
  else .error .assertFail

/-- The first half of `lba_start_fsm_t::run`: transition to `starting_up` and
request the load; the loaded structure is installed into `disk_structure`. -/
def start_begin (s : lba_list_t) (mb : metablock_mixin_t) : lba_list_t :=
  { s with state := .state_starting_up, disk_structure := some mb.snapshot }

/-- The `lba_start_fsm_t::finish` step: construct the Offset Table by replaying
the loaded Durable Log Snapshot, become ready, and invoke the ready-callback
exactly when one was recorded (`cb_present`, i.e. the asynchronous path). -/
def start_finish (s : lba_list_t) (cb_present : Bool) : lba_list_t × Bool :=
  ({ s with
      in_memory_index := some (match s.disk_structure with
        | some d => in_memory_index_t.ofDisk d
        | none => in_memory_index_t.init)
      state := .state_ready }, cb_present)

/-- Outcome of the recovery-startup protocol at the moment it completes. -/
structure start_outcome where
  final : lba_list_t
  returned_done : Bool
  cb_fired : Bool

/-- The recovery form of `lba_list_t::start` together with `lba_start_fsm_t`,
run to completion.  `load_now` is the environment's choice of whether
`lba_disk_structure_t::load` completes synchronously.  On the synchronous path
`run` clears the callback and calls `finish` before returning true; on the
deferred path it records the callback and `on_load_lba` calls `finish` later. -/
def start_load (s : lba_list_t) (mb : metablock_mixin_t) (load_now : Bool) :
    Except crash start_outcome :=
  if s.state = .state_unstarted then
    let s1 := start_begin s mb
    if load_now then
      let (s2, fired) := start_finish s1 false
      .ok ⟨s2, true, fired⟩
    else
      let (s2, fired) := start_finish s1 true
      .ok ⟨s2, false, fired⟩
  else .error .assertFail

/-- Source `lba_list_t::gen_block_id`: asserts ready, delegates to the Offset Table. -/
def gen_block_id (s : lba_list_t) : Except crash (Nat × lba_list_t) :=
  if s.state = .state_ready then
    match s.in_memory_index with
    | none => .error .nullDeref
    | some i =>
      let p := i.gen_block_id
      .ok (p.1, { s with in_memory_index := some p.2 })
  else .error .assertFail

/-- Source `lba_list_t::max_block_id`: asserts ready, delegates to the Offset Table. -/
def max_block_id (s : lba_list_t) : Except crash Nat :=
  if s.state = .state_ready then
    match s.in_memory_index with
    | none => .error .nullDeref
    | some i => .ok i.max_block_id
  else .error .assertFail

/-- Source `lba_list_t::get_block_offset`: asserts ready, reads the Offset Table. -/
def get_block_offset (s : lba_list_t) (b : Nat) : Except crash Int :=
  if s.state = .state_ready then
    match s.in_memory_index with
    | none => .error .nullDeref
    | some i => .ok (i.get_block_offset b)
  else .error .assertFail

/-- First statement of `lba_list_t::set_block_offset`: assert ready, then
`in_memory_index->set_block_offset(block, offset)`. -/
def set_upd_step (s : lba_list_t) (b : Nat) (off : Int) :
    Except crash (lba_list_t × List ev) :=
  if s.state = .state_ready then
    match s.in_memory_index with
    | none => .error .nullDeref
    | some i =>
      .ok ({ s with in_memory_index := some (i.set_block_offset b off) },
           [.upd_index b off])
  else .error .assertFail

/-- First statement of `lba_list_t::delete_block`: assert ready, then
`in_memory_index->delete_block(block)`. -/
def del_upd_step (s : lba_list_t) (b : Nat) :
    Except crash (lba_list_t × List ev) :=
  if s.state = .state_ready then
    match s.in_memory_index with
    | none => .error .nullDeref
    | some i =>
      .ok ({ s with in_memory_index := some (i.delete_block b) }, [.del_index b])
  else .error .assertFail

/-- Second statement of both mutators: `disk_structure->add_entry(...)`, an
append to whichever Durable Log Snapshot is current at this moment. -/
def append_step (s : lba_list_t) (b : Nat) (off : Int) :
    Except crash (lba_list_t × List ev) :=
  match s.disk_structure with
  | none => .error .nullDeref
  | some d =>
    .ok ({ s with disk_structure := some (d.add_entry b off) }, [.append b off])

/-- Source `lba_list_t::set_block_offset`: update the Offset Table, then append the
entry to the current Durable Log Snapshot. -/
def set_block_offset (s : lba_list_t) (b : Nat) (off : Int) :
    Except crash (lba_list_t × List ev) := do
  let r1 ← s.set_upd_step b off
  let r2 ← r1.1.append_step b off
  .ok (r2.1, r1.2 ++ r2.2)

/-- Source `lba_list_t::delete_block`: update the Offset Table, then append the
tombstone entry `DELETE_BLOCK` to the current Durable Log Snapshot. -/
def delete_block (s : lba_list_t) (b : Nat) :
    Except crash (lba_list_t × List ev) := do
  let r1 ← s.del_upd_step b
  let r2 ← r1.1.append_step b DELETE_BLOCK
  .ok (r2.1, r1.2 ++ r2.2)

/-- Source `lba_list_t::prepare_metablock`: no state assertion; dereferences
`disk_structure` unconditionally and produces the durable anchor. -/
def prepare_metablock (s : lba_list_t) : Except crash metablock_mixin_t :=
  match s.disk_structure with
  | none => .error .nullDeref
  | some d => .ok ⟨d.durable_part⟩

/-- Source `lba_list_t::shutdown`: asserts ready, releases the Offset Table, asks the
Durable Log Snapshot to flush-and-release itself, becomes shut_down. -/
def shutdown (s : lba_list_t) : Except crash lba_list_t :=
  if s.state = .state_ready then
    match s.disk_structure with
    | none => .error .nullDeref
    | some _ =>
      .ok { s with
        in_memory_index := none
        disk_structure := none
        state := .state_shut_down }
  else .error .assertFail

/-- The destructor `lba_list_t::~lba_list_t`: asserts
`state == state_unstarted || state == state_shut_down`, a null index and a null
disk structure. -/
def destruct (s : lba_list_t) : Except crash Unit :=
  if (s.state = .state_unstarted ∨ s.state = .state_shut_down) ∧
     s.in_memory_index.isNone = true ∧ s.disk_structure.isNone = true then
    .ok ()
  else .error .assertFail

end lba_list_t

/-- Outcome of the sync protocol at the moment it completes (the call returned
true, or the completion callback fired). -/
structure sync_outcome where
  final : lba_list_t
  returned_true : Bool
  cb_fired : Bool
  trace : List ev

/-- The `lba_syncer_t::finish` step: release the Sequencing Lock, then invoke
the caller's completion callback exactly when one was recorded. -/
def lba_syncer_finish (s : lba_list_t) (cb_present : Bool) :
    lba_list_t × Bool × List ev :=
  ({ s with disk_structure_lock := s.disk_structure_lock.unlock },
   cb_present,
   .release :: (if cb_present then [.callback_invoked] else []))

/-- Source `lba_syncer_t::run` together with its continuations, run to completion.
`run` first tries `do_acquire_lock` with the callback still null; if the whole
chain (read-lock grant, flush) completes synchronously it returns true and the
callback is never recorded, otherwise the callback is recorded and fires from
`finish` after the deferred completions.  `flush_now` is the environment's
choice of whether `lba_disk_structure_t::sync` completes synchronously.  In the
deferred-lock branch the woken state models the syncer alone holding the read
lock after the current holders released. -/
def lba_syncer_run (s : lba_list_t) (flush_now : Bool) :
    Except crash sync_outcome :=
  let p := s.disk_structure_lock.lock .rwi_read
  if p.2 then
    let s1 := { s with disk_structure_lock := p.1 }
    match s1.disk_structure with
    | none => .error .nullDeref
    | some d =>
      let s2 := { s1 with disk_structure := some d.flush }
      if flush_now then
        let r := lba_syncer_finish s2 false
        .ok ⟨r.1, true, r.2.1, [.acquire .rwi_read, .flush_start, .flush_done] ++ r.2.2⟩
      else
        let r := lba_syncer_finish s2 true
        .ok ⟨r.1, false, r.2.1, [.acquire .rwi_read, .flush_start, .flush_done] ++ r.2.2⟩
  else
    let s1 := { s with disk_structure_lock := ⟨1, false, []⟩ }
    match s1.disk_structure with
    | none => .error .nullDeref
    | some d =>
      let s2 := { s1 with disk_structure := some d.flush }
      let r := lba_syncer_finish s2 true
      .ok ⟨r.1, false, r.2.1, [.acquire .rwi_read, .flush_start, .flush_done] ++ r.2.2⟩

/-- Source `gc_fsm_t::do_replace_disk_structure`, up to the point where the flush of
the new generation is requested: destroy the old generation (fire-and-forget),
synchronously create and install a new empty one, copy every current Offset
Table entry for ids `0 ≤ id < max_block_id()` into it, then downgrade the
Sequencing Lock from write to read (`assert(ok)` on the re-acquisition). -/
def gc_do_replace (s : lba_list_t) : Except crash (lba_list_t × List ev) :=
  if s.state = .state_ready then
    match s.in_memory_index, s.disk_structure with
    | some i, some d =>
      let s1 := { s with destroying := s.destroying ++ [d] }
      let d2 := (List.range i.max_block_id).foldl
        (fun acc id => acc.add_entry id (i.get_block_offset id))
        lba_disk_structure_t.create
      let s2 := { s1 with disk_structure := some d2 }
      let l1 := s2.disk_structure_lock.unlock
      let p := l1.lock .rwi_read
      if p.2 then
        .ok ({ s2 with disk_structure_lock := p.1 },
          [.destroy_start, .create_new] ++
            (List.range i.max_block_id).map
              (fun id => .append id (i.get_block_offset id)) ++
            [.release, .acquire .rwi_read])
      else .error .assertFail
    | _, _ => .error .nullDeref
  else .error .assertFail

/-- Source `gc_fsm_t::do_cleanup`: release the read lock. -/
def gc_do_cleanup (s : lba_list_t) : lba_list_t :=
  { s with disk_structure_lock := s.disk_structure_lock.unlock }

/-- The `gc_fsm_t` constructor and its continuations, up to the point where
control returns to the code that invoked `lba_list_t::gc`: acquire the write
lock (queueing if unavailable), run the replace step, and request the flush of
the new generation.  When `flush_now` is false the flush is still pending at
return (the fsm holds the read lock and `on_sync_lba` will clean up later). -/
def gc_step (s : lba_list_t) (flush_now : Bool) : Except crash lba_list_t :=
  let p := s.disk_structure_lock.lock .rwi_write
  if p.2 then do
    let r ← gc_do_replace { s with disk_structure_lock := p.1 }
    match r.1.disk_structure with
    | none => .error .nullDeref
    | some d =>
      if flush_now then
        .ok (gc_do_cleanup { r.1 with disk_structure := some d.flush })
      else
        .ok r.1
  else
    .ok { s with disk_structure_lock := p.1 }

/-- A whole compaction run to completion (both flush-completion paths converge
to the same final state when nothing interleaves): replace, flush, cleanup. -/
def gc_complete (s : lba_list_t) : Except crash lba_list_t :=
  gc_step s true

/-- Source `lba_list_t::sync`: asserts ready; with probability 1/5 first triggers a
compaction (`rand() % 5 == 1`, modelled by the environment Boolean
`gc_triggered` with the gc flush choice `gc_flush_now`), then runs a
`lba_syncer_t`. -/
def lba_list_t.sync (s : lba_list_t) (gc_triggered gc_flush_now flush_now : Bool) :
    Except crash sync_outcome :=
  if s.state = .state_ready then do
    let s1 ← if gc_triggered then gc_step s gc_flush_now else .ok s
    lba_syncer_run s1 flush_now
  else .error .assertFail

/-- Mapping mutations, as issued by callers of the directory. -/
inductive lba_op
  | set (b : Nat) (off : Int)
  | del (b : Nat)
  deriving DecidableEq

/-- Apply one mapping mutation to the directory. -/
def lba_list_t.apply_op (s : lba_list_t) : lba_op → Except crash lba_list_t
  | .set b off => (s.set_block_offset b off).map Prod.fst
  | .del b => (s.delete_block b).map Prod.fst

/-- Apply a sequence of mapping mutations, each returning before the next. -/
def lba_list_t.applyOps (s : lba_list_t) : List lba_op → Except crash lba_list_t
  | [] => .ok s
  | op :: rest => do
    let s1 ← s.apply_op op
    s1.applyOps rest

/-- The Offset Table after a sequence of mutations (pure view). -/
def applyIdx (i : in_memory_index_t) : List lba_op → in_memory_index_t
  | [] => i
  | .set b off :: rest => applyIdx (i.set_block_offset b off) rest
  | .del b :: rest => applyIdx (i.delete_block b) rest

/-- The Durable Log Snapshot after a sequence of mutations (pure view). -/
def applyLog (d : lba_disk_structure_t) : List lba_op → lba_disk_structure_t
  | [] => d
  | .set b off :: rest => applyLog (d.add_entry b off) rest
  | .del b :: rest => applyLog (d.add_entry b DELETE_BLOCK) rest

/-- The value written to id `b` by the last mutation of `ops` touching `b`. -/
def lastWrite : List lba_op → Nat → Option Int
  | [], _ => none
  | .set b2 off :: rest, b =>
    match lastWrite rest b with
    | some v => some v
    | none => if b2 = b then some off else none
  | .del b2 :: rest, b =>
    match lastWrite rest b with
    | some v => some v
    | none => if b2 = b then some DELETE_BLOCK else none

/-- Consistency between the in-memory Offset Table and the current Durable Log
Snapshot: replaying the snapshot's entries reproduces the table, and no id at
or beyond the allocation bound has a live mapping. -/
def lbaInv (i : in_memory_index_t) (d : lba_disk_structure_t) : Prop :=
  (∀ b, replayEntries d.entries b = i.tbl b) ∧
  (∀ b, i.next_id ≤ b → i.tbl b = DELETE_BLOCK)

/-- The full durability scenario of the spec: apply a sequence of mutations,
run `sync` to completion, produce the anchor at that point, and reconstruct a
directory from the anchor on a fresh `lba_list_t`.  Returns the in-memory table
at the moment `sync` was invoked and the reconstructed table. -/
def durability_run (s0 : lba_list_t) (ops : List lba_op)
    (gc_triggered gc_flush_now flush_now load_now : Bool) :
    Except crash ((Nat → Int) × (Nat → Int)) := do
  let s1 ← s0.applyOps ops
  let out ← s1.sync gc_triggered gc_flush_now flush_now
  let mb ← out.final.prepare_metablock
  let out2 ← lba_list_t.new.start_load mb load_now
  .ok (s1.memTable, out2.final.memTable)

/-- The entries the compaction copy loop appends into the new generation: one
entry per id `0 ≤ id < max_block_id()`, holding that id's current Offset Table
value. -/
def copy_entries (i : in_memory_index_t) : List (Nat × Int) :=
  (List.range i.max_block_id).map (fun id => (id, i.get_block_offset id))

/-! Helper lemmas. -/

theorem replayEntries_append_single (es : List (Nat × Int)) (b : Nat) (off : Int)
    (x : Nat) :
    replayEntries (es ++ [(b, off)]) x = if x = b then off else replayEntries es x := by
  simp [replayEntries, List.foldl_append, replayEntry]

theorem foldl_add_entry (f : Nat → Int) (l : List Nat) (d : lba_disk_structure_t) :
    l.foldl (fun acc id => acc.add_entry id (f id)) d =
      ⟨d.entries ++ l.map (fun id => (id, f id)), d.synced⟩ := by
  induction l generalizing d with
  | nil => simp
  | cons a t ih =>
    rw [List.foldl_cons, ih]
    simp [lba_disk_structure_t.add_entry]

theorem replay_range_map (f : Nat → Int) (n x : Nat) :
    replayEntries ((List.range n).map (fun id => (id, f id))) x =
      if x < n then f x else DELETE_BLOCK := by
  induction n with
  | zero => simp [replayEntries]
  | succ n ih =>
    rw [List.range_succ, List.map_append, List.map_cons, List.map_nil,
      replayEntries_append_single, ih]
    rcases Nat.lt_trichotomy x n with h | h | h
    · have h1 : x ≠ n := Nat.ne_of_lt h
      have h2 : x < n + 1 := Nat.lt_succ_of_lt h
      simp [h1, h, h2]
    · simp [h]
    · have h1 : x ≠ n := Nat.ne_of_gt h
      have h2 : ¬x < n := by omega
      have h3 : ¬x < n + 1 := by omega
      simp [h1, h2, h3]

theorem applyOps_eq (ops : List lba_op) (i : in_memory_index_t)
    (d : lba_disk_structure_t) (l : rwi_lock_t) (dst : List lba_disk_structure_t) :
    lba_list_t.applyOps ⟨.state_ready, some i, some d, l, dst⟩ ops =
      .ok ⟨.state_ready, some (applyIdx i ops), some (applyLog d ops), l, dst⟩ := by
  induction ops generalizing i d with
  | nil => rfl
  | cons op rest ih =>
    cases op with
    | set b off =>
      simpa [lba_list_t.applyOps, lba_list_t.apply_op, lba_list_t.set_block_offset,
        lba_list_t.set_upd_step, lba_list_t.append_step, applyIdx, applyLog] using ih _ _
    | del b =>
      simpa [lba_list_t.applyOps, lba_list_t.apply_op, lba_list_t.delete_block,
        lba_list_t.del_upd_step, lba_list_t.append_step, applyIdx, applyLog] using ih _ _

theorem lbaInv_init : lbaInv in_memory_index_t.init lba_disk_structure_t.create := by
  constructor
  · intro b; rfl
  · intro b _; rfl

theorem lbaInv_ops (ops : List lba_op) (i : in_memory_index_t)
    (d : lba_disk_structure_t) (h : lbaInv i d) :
    lbaInv (applyIdx i ops) (applyLog d ops) := by
  induction ops generalizing i d with
  | nil => exact h
  | cons op rest ih =>
    cases op with
    | set b off =>
      refine ih _ _ ⟨?_, ?_⟩
      · intro x
        rw [show (d.add_entry b off).entries = d.entries ++ [(b, off)] from rfl,
          replayEntries_append_single]
        simp only [in_memory_index_t.set_block_offset]
        by_cases hx : x = b <;> simp [hx, h.1 x]
      · intro x hx
        simp only [in_memory_index_t.set_block_offset] at hx ⊢
        have hb : x ≠ b := by omega
        have hn : i.next_id ≤ x := by omega
        simp [hb, h.2 x hn]
    | del b =>
      refine ih _ _ ⟨?_, ?_⟩
      · intro x
        rw [show (d.add_entry b DELETE_BLOCK).entries = d.entries ++ [(b, DELETE_BLOCK)] from rfl,
          replayEntries_append_single]
        simp only [in_memory_index_t.delete_block]
        by_cases hx : x = b <;> simp [hx, h.1 x]
      · intro x hx
        simp only [in_memory_index_t.delete_block] at hx ⊢
        by_cases hb : x = b <;> simp [hb, h.2 x hx]

theorem lastWrite_cons_some (op : lba_op) (rest : List lba_op) (b : Nat) (v : Int)
    (h : lastWrite rest b = some v) : lastWrite (op :: rest) b = some v := by
  cases op <;> simp [lastWrite, h]

theorem lastWrite_cons_set_none (b2 : Nat) (off : Int) (rest : List lba_op) (b : Nat)
    (h : lastWrite rest b = none) :
    lastWrite (.set b2 off :: rest) b = if b2 = b then some off else none := by
  simp [lastWrite, h]

theorem lastWrite_cons_del_none (b2 : Nat) (rest : List lba_op) (b : Nat)
    (h : lastWrite rest b = none) :
    lastWrite (.del b2 :: rest) b = if b2 = b then some DELETE_BLOCK else none := by
  simp [lastWrite, h]

theorem lastWrite_none_tbl (ops : List lba_op) (b : Nat) (i : in_memory_index_t)
    (h : lastWrite ops b = none) : (applyIdx i ops).tbl b = i.tbl b := by
  induction ops generalizing i with
  | nil => rfl
  | cons op rest ih =>
    cases hrest : lastWrite rest b with
    | some v => rw [lastWrite_cons_some op rest b v hrest] at h; exact absurd h (by simp)
    | none =>
      cases op with
      | set b2 off =>
        rw [lastWrite_cons_set_none b2 off rest b hrest] at h
        by_cases hb : b2 = b
        · rw [if_pos hb] at h; exact absurd h (by simp)
        · have hb' : ¬b = b2 := fun hx => hb hx.symm
          simp only [applyIdx]
          rw [ih _ hrest]
          simp [in_memory_index_t.set_block_offset, hb']
      | del b2 =>
        rw [lastWrite_cons_del_none b2 rest b hrest] at h
        by_cases hb : b2 = b
        · rw [if_pos hb] at h; exact absurd h (by simp)
        · have hb' : ¬b = b2 := fun hx => hb hx.symm
          simp only [applyIdx]
          rw [ih _ hrest]
          simp [in_memory_index_t.delete_block, hb']

theorem lastWrite_some_tbl (ops : List lba_op) (b : Nat) (v : Int)
    (i : in_memory_index_t) (h : lastWrite ops b = some v) :
    (applyIdx i ops).tbl b = v := by
  induction ops generalizing i with
  | nil => exact absurd h (by simp [lastWrite])
  | cons op rest ih =>
    cases hrest : lastWrite rest b with
    | some w =>
      rw [lastWrite_cons_some op rest b w hrest] at h
      injection h with h2
      subst h2
      cases op with
      | set b2 off => exact ih _ hrest
      | del b2 => exact ih _ hrest
    | none =>
      cases op with
      | set b2 off =>
        rw [lastWrite_cons_set_none b2 off rest b hrest] at h
        by_cases hb : b2 = b
        · rw [if_pos hb] at h
          injection h with h2
          simp only [applyIdx]
          rw [lastWrite_none_tbl rest b _ hrest]
          simp [in_memory_index_t.set_block_offset, hb.symm, h2]
        · rw [if_neg hb] at h; exact absurd h (by simp)
      | del b2 =>
        rw [lastWrite_cons_del_none b2 rest b hrest] at h
        by_cases hb : b2 = b
        · rw [if_pos hb] at h
          injection h with h2
          simp only [applyIdx]
          rw [lastWrite_none_tbl rest b _ hrest]
          simp [in_memory_index_t.delete_block, hb.symm, h2]
        · rw [if_neg hb] at h; exact absurd h (by simp)

theorem getElem_range_map (f : Nat → Nat × Int) (n b : Nat) :
    ((List.range n).map f)[b]? = if b < n then some (f b) else none := by
  rw [List.getElem?_map]
  by_cases h : b < n
  · simp [List.getElem?_range h, h]
  · rw [if_neg h, List.getElem?_eq_none (by simpa using Nat.le_of_not_lt h)]
    rfl

theorem wake_no_write (q : List access_t) (h : access_t.rwi_write ∉ q) (r : Nat) :
    rwi_lock_t.wake r q = ⟨r + q.length, false, []⟩ := by
  induction q generalizing r with
  | nil => simp [rwi_lock_t.wake]
  | cons m rest ih =>
    cases m with
    | rwi_read =>
      have h2 : access_t.rwi_write ∉ rest := fun hm => h (List.mem_cons_of_mem _ hm)
      rw [rwi_lock_t.wake, ih h2 (r + 1)]
      simp
      omega
    | rwi_write => exact absurd (List.mem_cons_self _ _) h

theorem wake_write_mem (q : List access_t) (h : access_t.rwi_write ∈ q) (r : Nat) :
    (rwi_lock_t.wake r q).writerHeld = true ∨ (rwi_lock_t.wake r q).queue ≠ [] := by
  induction q generalizing r with
  | nil => simp at h
  | cons m rest ih =>
    cases m with
    | rwi_read =>
      have h2 : access_t.rwi_write ∈ rest := by
        rcases List.mem_cons.mp h with h3 | h3
        · exact absurd h3 (by simp)
        · exact h3
      rw [rwi_lock_t.wake]
      exact ih h2 (r + 1)
    | rwi_write =>
      cases r with
      | zero => left; rfl
      | succ r2 => right; simp [rwi_lock_t.wake]

theorem gc_do_replace_closed (i : in_memory_index_t) (d : lba_disk_structure_t)
    (dst : List lba_disk_structure_t) :
    gc_do_replace ⟨.state_ready, some i, some d, ⟨0, true, []⟩, dst⟩ =
      .ok (⟨.state_ready, some i, some ⟨copy_entries i, 0⟩, ⟨1, false, []⟩, dst ++ [d]⟩,
        [.destroy_start, .create_new] ++
          (List.range i.max_block_id).map
            (fun id => .append id (i.get_block_offset id)) ++
          [.release, .acquire .rwi_read]) := by
  simp [gc_do_replace, foldl_add_entry, copy_entries, lba_disk_structure_t.create,
    rwi_lock_t.unlock, rwi_lock_t.wake, rwi_lock_t.lock, rwi_lock_t.canGrant,
    rwi_lock_t.grant]

theorem gc_step_quiescent (i : in_memory_index_t) (d : lba_disk_structure_t)
    (dst : List lba_disk_structure_t) (flushN : Bool) :
    gc_step ⟨.state_ready, some i, some d, ⟨0, false, []⟩, dst⟩ flushN =
      .ok (if flushN then
          ⟨.state_ready, some i, some ⟨copy_entries i, (copy_entries i).length⟩,
            ⟨0, false, []⟩, dst ++ [d]⟩
        else
          ⟨.state_ready, some i, some ⟨copy_entries i, 0⟩, ⟨1, false, []⟩, dst ++ [d]⟩) := by
  cases flushN <;>
    simp [gc_step, rwi_lock_t.lock, rwi_lock_t.canGrant, rwi_lock_t.grant,
      gc_do_replace_closed, gc_do_cleanup, lba_disk_structure_t.flush,
      rwi_lock_t.unlock, rwi_lock_t.wake, Bind.bind, Except.bind]

theorem syncer_readers (i : in_memory_index_t) (d : lba_disk_structure_t)
    (dst : List lba_disk_structure_t) (r : Nat) (fN : Bool) :
    lba_syncer_run ⟨.state_ready, some i, some d, ⟨r, false, []⟩, dst⟩ fN =
      .ok ⟨⟨.state_ready, some i, some d.flush, ⟨r, false, []⟩, dst⟩, fN, !fN,
        [.acquire .rwi_read, .flush_start, .flush_done, .release] ++
          (if !fN then [.callback_invoked] else [])⟩ := by
  cases fN <;>
    simp [lba_syncer_run, lba_syncer_finish, rwi_lock_t.lock, rwi_lock_t.canGrant,
      rwi_lock_t.grant, rwi_lock_t.unlock, rwi_lock_t.wake]

theorem sync_quiescent (i : in_memory_index_t) (d : lba_disk_structure_t)
    (dst : List lba_disk_structure_t) (gcT gcFN fN : Bool) :
    lba_list_t.sync ⟨.state_ready, some i, some d, ⟨0, false, []⟩, dst⟩ gcT gcFN fN =
      .ok ⟨⟨.state_ready, some i,
            some (if gcT then ⟨copy_entries i, (copy_entries i).length⟩ else d.flush),
            (if gcT && !gcFN then ⟨1, false, []⟩ else ⟨0, false, []⟩),
            (if gcT then dst ++ [d] else dst)⟩, fN, !fN,
        [.acquire .rwi_read, .flush_start, .flush_done, .release] ++
          (if !fN then [.callback_invoked] else [])⟩ := by
  cases gcT with
  | false => simp [lba_list_t.sync, syncer_readers, Bind.bind, Except.bind]
  | true =>
    cases gcFN <;>
      simp [lba_list_t.sync, gc_step_quiescent, syncer_readers,
        lba_disk_structure_t.flush, Bind.bind, Except.bind]

theorem syncer_deferred (i : in_memory_index_t) (d : lba_disk_structure_t)
    (dst : List lba_disk_structure_t) (l : rwi_lock_t) (fN : Bool)
    (hg : l.canGrant .rwi_read = false) :
    lba_syncer_run ⟨.state_ready, some i, some d, l, dst⟩ fN =
      .ok ⟨⟨.state_ready, some i, some d.flush, ⟨0, false, []⟩, dst⟩, false, true,
        [.acquire .rwi_read, .flush_start, .flush_done, .release, .callback_invoked]⟩ := by
  simp [lba_syncer_run, rwi_lock_t.lock, hg, lba_syncer_finish, rwi_lock_t.unlock,
    rwi_lock_t.wake]

/-! Claim theorems. -/

/-- Claim C3: for every block id and offset, `set_block_offset(id, offset)` and
`delete_block(id)` first update the in-memory Offset Table — synchronously, so
the change is immediately visible to subsequent `get_block_offset` calls while
the log is still untouched — and only then append the corresponding entry (for
delete, the tombstone entry `DELETE_BLOCK`) to whichever Durable Log Snapshot
is current at the moment of the call; neither operation waits for durability
(the durable watermark is unchanged and no flush event occurs). -/
theorem claim3_update_then_append (i : in_memory_index_t) (d : lba_disk_structure_t)
    (l : rwi_lock_t) (dst : List lba_disk_structure_t) (b : Nat) (off : Int) :
    (lba_list_t.mk .state_ready (some i) (some d) l dst).set_upd_step b off =
      .ok (⟨.state_ready, some (i.set_block_offset b off), some d, l, dst⟩,
        [.upd_index b off]) ∧
    lba_list_t.get_block_offset
      ⟨.state_ready, some (i.set_block_offset b off), some d, l, dst⟩ b = .ok off ∧
    (lba_list_t.mk .state_ready (some i) (some d) l dst).set_block_offset b off =
      .ok (⟨.state_ready, some (i.set_block_offset b off),
        some (d.add_entry b off), l, dst⟩, [.upd_index b off, .append b off]) ∧
    (d.add_entry b off).synced = d.synced ∧
    ev.flush_done ∉ [ev.upd_index b off, ev.append b off] ∧
    (lba_list_t.mk .state_ready (some i) (some d) l dst).del_upd_step b =
      .ok (⟨.state_ready, some (i.delete_block b), some d, l, dst⟩, [.del_index b]) ∧
    lba_list_t.get_block_offset
      ⟨.state_ready, some (i.delete_block b), some d, l, dst⟩ b = .ok DELETE_BLOCK ∧
    (lba_list_t.mk .state_ready (some i) (some d) l dst).delete_block b =
      .ok (⟨.state_ready, some (i.delete_block b),
        some (d.add_entry b DELETE_BLOCK), l, dst⟩,
        [.del_index b, .append b DELETE_BLOCK]) ∧
    (d.add_entry b DELETE_BLOCK).synced = d.synced := by
  refine ⟨?_, ?_, ?_, rfl, by simp, ?_, ?_, ?_, rfl⟩
  · simp [lba_list_t.set_upd_step]
  · simp [lba_list_t.get_block_offset, in_memory_index_t.get_block_offset,
      in_memory_index_t.set_block_offset]
  · simp [lba_list_t.set_block_offset, lba_list_t.set_upd_step,
      lba_list_t.append_step, Bind.bind, Except.bind]
  · simp [lba_list_t.del_upd_step]
  · simp [lba_list_t.get_block_offset, in_memory_index_t.get_block_offset,
      in_memory_index_t.delete_block]
  · simp [lba_list_t.delete_block, lba_list_t.del_upd_step,
      lba_list_t.append_step, Bind.bind, Except.bind]

/-- Claim C4: when a compaction holds the Sequencing Lock in write mode, its
replace step (1) instructs the old Durable Log Snapshot to destroy itself
without waiting for that destruction to complete (the old generation is still
pending destruction at return, and no destroy-completion event occurs), (2)
synchronously creates a new empty Durable Log Snapshot and installs it as
current, and (3) appends, for every id from 0 up to (exclusive)
`max_block_id()`, that id's current Offset Table entry to the new snapshot —
in that order. -/
theorem claim4_replace_steps (i : in_memory_index_t) (d : lba_disk_structure_t)
    (dst : List lba_disk_structure_t) :
    ∃ s2 t,
      gc_do_replace ⟨.state_ready, some i, some d, ⟨0, true, []⟩, dst⟩ = .ok (s2, t) ∧
      s2.destroying = dst ++ [d] ∧
      ev.destroy_done ∉ t ∧
      s2.disk_structure = some ⟨copy_entries i, 0⟩ ∧
      (copy_entries i).length = i.max_block_id ∧
      (∀ id, (copy_entries i)[id]? =
        if id < i.max_block_id then some (id, i.get_block_offset id) else none) ∧
      t = [.destroy_start, .create_new] ++
        (List.range i.max_block_id).map
          (fun id => .append id (i.get_block_offset id)) ++
        [.release, .acquire .rwi_read] := by
  refine ⟨_, _, gc_do_replace_closed i d dst, rfl, ?_, rfl, by simp [copy_entries], ?_, rfl⟩
  · simp
  · intro id
    exact getElem_range_map _ _ _

/-- Claim C5: a sync from state ready acquires the Sequencing Lock in read
mode, flushes the current Durable Log Snapshot, and on flush completion
releases the lock and then invokes the caller's callback (the trace shows the
release strictly before the callback); it returns true exactly when the whole
sequence (lock grant and flush) completed synchronously, and the callback
fires exactly when it returned false — one of the two, never both, never
neither. -/
theorem claim5_sync_protocol (i : in_memory_index_t) (d : lba_disk_structure_t)
    (dst : List lba_disk_structure_t) (l : rwi_lock_t) (fN gcT gcFN fN2 : Bool) :
    (∃ out, lba_syncer_run ⟨.state_ready, some i, some d, l, dst⟩ fN = .ok out ∧
      out.returned_true = (l.canGrant .rwi_read && fN) ∧
      out.cb_fired = !out.returned_true ∧
      (∃ d2, out.final.disk_structure = some d2 ∧ d2.entries = d.entries ∧
        d2.synced = d.entries.length) ∧
      out.trace = [.acquire .rwi_read, .flush_start, .flush_done, .release] ++
        (if out.cb_fired then [.callback_invoked] else [])) ∧
    (∃ out2, lba_list_t.sync ⟨.state_ready, some i, some d, ⟨0, false, []⟩, dst⟩
        gcT gcFN fN2 = .ok out2 ∧
      out2.returned_true = fN2 ∧ out2.cb_fired = !fN2) := by
  constructor
  · rcases l with ⟨r, w, q⟩
    by_cases hg : rwi_lock_t.canGrant ⟨r, w, q⟩ .rwi_read = true
    · have hw : w = false ∧ q = [] := by
        simpa [rwi_lock_t.canGrant] using hg
      rcases hw with ⟨hw, hq⟩
      subst hw; subst hq
      refine ⟨_, syncer_readers i d dst r fN, ?_, ?_, ⟨d.flush, rfl, rfl, rfl⟩, ?_⟩
      · rw [hg]; simp
      · cases fN <;> rfl
      · cases fN <;> rfl
    · have hg2 : rwi_lock_t.canGrant ⟨r, w, q⟩ .rwi_read = false :=
        Bool.not_eq_true _ ▸ Bool.of_not_eq_true hg
      refine ⟨_, syncer_deferred i d dst _ fN hg2, ?_, rfl,
        ⟨d.flush, rfl, rfl, rfl⟩, rfl⟩
      rw [hg2]; simp
  · exact ⟨_, sync_quiescent i d dst gcT gcFN fN2, rfl, rfl⟩

/-- Claim C6: recovery startup is legal only from unstarted, transitions to
starting_up, and whether the load completes synchronously or asynchronously it
performs the same finish step — construct the Offset Table by replaying the
loaded Durable Log Snapshot and transition to ready; exactly one of
{immediate return value true, later invocation of the ready-callback} occurs,
the callback firing exactly on the asynchronous path. -/
theorem claim6_startup (idx0 : Option in_memory_index_t)
    (dsk0 : Option lba_disk_structure_t) (l : rwi_lock_t)
    (dst : List lba_disk_structure_t) (mb : metablock_mixin_t) (loadN : Bool) :
    (lba_list_t.start_begin ⟨.state_unstarted, idx0, dsk0, l, dst⟩ mb).state =
      .state_starting_up ∧
    (∃ out, (lba_list_t.mk .state_unstarted idx0 dsk0 l dst).start_load mb loadN =
        .ok out ∧
      out.returned_done = loadN ∧
      out.cb_fired = !loadN ∧
      out.final.state = .state_ready ∧
      out.final.in_memory_index = some (in_memory_index_t.ofDisk mb.snapshot) ∧
      (∀ b, out.final.memTable b = replayEntries mb.snapshot.entries b)) ∧
    (∀ st, st ≠ .state_unstarted →
      (lba_list_t.mk st idx0 dsk0 l dst).start_load mb loadN = .error .assertFail) := by
  refine ⟨rfl, ?_, ?_⟩
  · cases loadN with
    | false => exact ⟨_, rfl, rfl, rfl, rfl, rfl, fun b => rfl⟩
    | true => exact ⟨_, rfl, rfl, rfl, rfl, rfl, fun b => rfl⟩
  · intro st hst
    cases st with
    | state_unstarted => exact absurd rfl hst
    | state_starting_up => rfl
    | state_ready => rfl
    | state_shut_down => rfl

/-- Claim C7: after the replace-and-copy step, compaction releases the write
lock and immediately re-acquires the Sequencing Lock in read mode; when no
second compaction is queued on the lock this re-acquisition always succeeds
(the replace step completes and the fsm holds a read lock), and when a second
compaction is queued the failed re-acquisition is a fatal assertion failure,
not a retried or recovered condition. -/
theorem claim7_downgrade (i : in_memory_index_t) (d : lba_disk_structure_t)
    (dst : List lba_disk_structure_t) (q : List access_t) :
    (access_t.rwi_write ∉ q →
      ∃ s2 t, gc_do_replace ⟨.state_ready, some i, some d, ⟨0, true, q⟩, dst⟩ =
        .ok (s2, t) ∧
        s2.disk_structure_lock = ⟨q.length + 1, false, []⟩) ∧
    (access_t.rwi_write ∈ q →
      gc_do_replace ⟨.state_ready, some i, some d, ⟨0, true, q⟩, dst⟩ =
        .error .assertFail) := by
  constructor
  · intro h
    simp [gc_do_replace, rwi_lock_t.unlock, rwi_lock_t.lock, wake_no_write q h 0,
      rwi_lock_t.canGrant, rwi_lock_t.grant, foldl_add_entry]
  · intro h
    have hw := wake_write_mem q h 0
    have hcg : (rwi_lock_t.wake 0 q).canGrant .rwi_read = false := by
      rcases hw with h1 | h1
      · simp [rwi_lock_t.canGrant, h1]
      · rcases hq2 : (rwi_lock_t.wake 0 q).queue with _ | ⟨m, rest⟩
        · exact absurd hq2 h1
        · simp [rwi_lock_t.canGrant, hq2]
    simp [gc_do_replace, rwi_lock_t.unlock, rwi_lock_t.lock, hcg]

/-- Claim C8, counterexample: the destructor's contract also admits the
`unstarted` state — a freshly constructed directory (state `unstarted`, which
is not `shut_down`) can be destroyed without any assertion failure, refuting
"for every lifecycle state other than shut_down, running the destructor is a
contract violation". -/
theorem claim8_counterexample :
    lba_list_t.new.destruct = .ok () ∧ lba_list_t.new.state ≠ .state_shut_down := by
  constructor
  · rfl
  · intro h
    exact absurd h (by simp [lba_list_t.new])

/-- Claim C8, amended: the destructor succeeds exactly in the `unstarted` and
`shut_down` lifecycle states with no Offset Table and no Durable Log Snapshot
installed; in every other situation (in particular in `starting_up` and
`ready`) running the destructor is a contract (assertion) violation. -/
theorem claim8_destruct_amended (s : lba_list_t) :
    s.destruct = .ok () ↔
      ((s.state = .state_unstarted ∨ s.state = .state_shut_down) ∧
        s.in_memory_index.isNone = true ∧ s.disk_structure.isNone = true) := by
  by_cases h : (s.state = .state_unstarted ∨ s.state = .state_shut_down) ∧
      s.in_memory_index.isNone = true ∧ s.disk_structure.isNone = true
  · simp [lba_list_t.destruct, h]
  · simp [lba_list_t.destruct, h]

/-- Claim C9: `prepare_metablock` is the only public operation with no state
precondition — its result does not depend on the lifecycle state at all, and
when no Durable Log Snapshot is installed it fails by dereferencing the null
`disk_structure` pointer rather than by a contract assertion; by contrast
`gen_block_id`, `max_block_id`, `get_block_offset`, `set_block_offset`,
`delete_block`, `sync` and `shutdown` all fail their `state == state_ready`
assertion outside ready. -/
theorem claim9_prepare_metablock_unchecked (s : lba_list_t) :
    (∀ st, (lba_list_t.mk st s.in_memory_index s.disk_structure
        s.disk_structure_lock s.destroying).prepare_metablock =
      s.prepare_metablock) ∧
    (s.disk_structure = none → s.prepare_metablock = .error .nullDeref) ∧
    (s.state ≠ .state_ready →
      s.gen_block_id = .error .assertFail ∧
      s.max_block_id = .error .assertFail ∧
      (∀ b, s.get_block_offset b = .error .assertFail) ∧
      (∀ b off, s.set_block_offset b off = .error .assertFail) ∧
      (∀ b, s.delete_block b = .error .assertFail) ∧
      (∀ g1 g2 f, s.sync g1 g2 f = .error .assertFail) ∧
      s.shutdown = .error .assertFail) := by
  refine ⟨fun st => rfl, ?_, ?_⟩
  · intro h
    simp [lba_list_t.prepare_metablock, h]
  · intro h
    refine ⟨?_, ?_, fun b => ?_, fun b off => ?_, fun b => ?_, fun g1 g2 f => ?_, ?_⟩
    · simp [lba_list_t.gen_block_id, h]
    · simp [lba_list_t.max_block_id, h]
    · simp [lba_list_t.get_block_offset, h]
    · simp [lba_list_t.set_block_offset, lba_list_t.set_upd_step, h,
        Bind.bind, Except.bind]
    · simp [lba_list_t.delete_block, lba_list_t.del_upd_step, h,
        Bind.bind, Except.bind]
    · simp [lba_list_t.sync, h]
    · simp [lba_list_t.shutdown, h]

/-- Claim C10: compaction never mutates the in-memory Offset Table — run to
completion (with the lock available and no interleaved mutations) it leaves
`in_memory_index` exactly as it was, so `get_block_offset` returns the same
value before and after, and `gen_block_id` would hand out the same next id. -/
theorem claim10_gc_frame (i : in_memory_index_t) (d : lba_disk_structure_t)
    (dst : List lba_disk_structure_t) (l : rwi_lock_t)
    (hl : l.canGrant .rwi_write = true) :
    ∃ s2, gc_complete ⟨.state_ready, some i, some d, l, dst⟩ = .ok s2 ∧
      s2.in_memory_index = some i ∧
      s2.state = .state_ready ∧
      (∀ b, s2.get_block_offset b =
        (lba_list_t.mk .state_ready (some i) (some d) l dst).get_block_offset b) ∧
      (∃ r1 r2, s2.gen_block_id = .ok r1 ∧
        (lba_list_t.mk .state_ready (some i) (some d) l dst).gen_block_id = .ok r2 ∧
        r1.1 = r2.1) := by
  rcases l with ⟨r, w, q⟩
  have hw : w = false ∧ r = 0 ∧ q = [] := by
    simpa [rwi_lock_t.canGrant, and_assoc] using hl
  rcases hw with ⟨hw, hr, hq⟩
  subst hw; subst hr; subst hq
  have h2 := gc_step_quiescent i d dst true
  rw [if_pos rfl] at h2
  refine ⟨_, h2, rfl, rfl, fun b => rfl, ⟨_, _, rfl, rfl, rfl⟩⟩

/-- Claim C2: every `set_block_offset`/`delete_block` call that returned before
a compaction's replace step is reflected in the new generation once the copy
loop completes — replaying the new generation's entries at that block id gives
the updated offset (or tombstone), and for an allocated id the entry the
compaction appended for it is exactly that value, even though the call's own
append targeted the old, discarded generation. -/
theorem claim2_no_lost_updates (i : in_memory_index_t) (d : lba_disk_structure_t)
    (dst : List lba_disk_structure_t) (ops : List lba_op) (b : Nat) (v : Int)
    (hinv : lbaInv i d) (h : lastWrite ops b = some v) :
    ∃ s1 s2 d2,
      lba_list_t.applyOps ⟨.state_ready, some i, some d, ⟨0, false, []⟩, dst⟩ ops =
        .ok s1 ∧
      gc_complete s1 = .ok s2 ∧
      s2.disk_structure = some d2 ∧
      replayEntries d2.entries b = v ∧
      (b < (applyIdx i ops).next_id → d2.entries[b]? = some (b, v)) := by
  have hI := lbaInv_ops ops i d hinv
  have htbl := lastWrite_some_tbl ops b v i h
  have hgc := gc_step_quiescent (applyIdx i ops) (applyLog d ops) dst true
  rw [if_pos rfl] at hgc
  refine ⟨_, _, _, applyOps_eq ops i d ⟨0, false, []⟩ dst, hgc, rfl, ?_, ?_⟩
  · rw [show copy_entries (applyIdx i ops) =
        (List.range (applyIdx i ops).max_block_id).map
          (fun id => (id, (applyIdx i ops).get_block_offset id)) from rfl,
      replay_range_map]
    by_cases hb : b < (applyIdx i ops).max_block_id
    · rw [if_pos hb]; exact htbl
    · rw [if_neg hb]
      have hd := hI.2 b (Nat.le_of_not_lt hb)
      exact (htbl.symm.trans hd).symm
  · intro hlt
    rw [show copy_entries (applyIdx i ops) =
        (List.range (applyIdx i ops).max_block_id).map
          (fun id => (id, (applyIdx i ops).get_block_offset id)) from rfl,
      getElem_range_map]
    rw [if_pos (show b < (applyIdx i ops).max_block_id from hlt)]
    simp [in_memory_index_t.get_block_offset, htbl]

/-- Claim C1: for every sequence of `set_block_offset`/`delete_block` calls
each returning before `sync` is invoked, once that sync completes (whether it
returned true or its callback fired, and whether or not it triggered a
compaction), reconstructing an Offset Table by loading the anchor produced at
that point and replaying the Durable Log Snapshot yields a table identical to
the in-memory Offset Table at the moment `sync` was invoked. -/
theorem claim1_durability (i : in_memory_index_t) (d : lba_disk_structure_t)
    (dst : List lba_disk_structure_t) (ops : List lba_op)
    (gcT gcFN fN loadN : Bool) (hinv : lbaInv i d) :
    ∃ p, durability_run ⟨.state_ready, some i, some d, ⟨0, false, []⟩, dst⟩ ops
        gcT gcFN fN loadN = .ok p ∧
      ∀ b, p.2 b = p.1 b := by
  have hI := lbaInv_ops ops i d hinv
  have happ := applyOps_eq ops i d ⟨0, false, []⟩ dst
  have hsync := sync_quiescent (applyIdx i ops) (applyLog d ops) dst gcT gcFN fN
  cases gcT with
  | false =>
    have heq : durability_run ⟨.state_ready, some i, some d, ⟨0, false, []⟩, dst⟩
        ops false gcFN fN loadN =
        .ok ((applyIdx i ops).tbl, replayEntries (applyLog d ops).entries) := by
      cases loadN <;>
        simp [durability_run, happ, hsync, Bind.bind, Except.bind,
          lba_list_t.prepare_metablock, lba_disk_structure_t.durable_part,
          lba_disk_structure_t.flush, lba_list_t.start_load, lba_list_t.start_begin,
          lba_list_t.start_finish, lba_list_t.new, lba_list_t.memTable,
          in_memory_index_t.ofDisk]
    exact ⟨_, heq, fun b => hI.1 b⟩
  | true =>
    have hcopy : ∀ b, replayEntries (copy_entries (applyIdx i ops)) b =
        (applyIdx i ops).tbl b := by
      intro b
      rw [show copy_entries (applyIdx i ops) =
          (List.range (applyIdx i ops).max_block_id).map
            (fun id => (id, (applyIdx i ops).get_block_offset id)) from rfl,
        replay_range_map]
      by_cases hb : b < (applyIdx i ops).max_block_id
      · rw [if_pos hb]; rfl
      · rw [if_neg hb]
        exact (hI.2 b (Nat.le_of_not_lt hb)).symm
    have heq : durability_run ⟨.state_ready, some i, some d, ⟨0, false, []⟩, dst⟩
        ops true gcFN fN loadN =
        .ok ((applyIdx i ops).tbl, replayEntries (copy_entries (applyIdx i ops))) := by
      cases loadN <;>
        simp [durability_run, happ, hsync, Bind.bind, Except.bind,
          lba_list_t.prepare_metablock, lba_disk_structure_t.durable_part,
          lba_disk_structure_t.flush, lba_list_t.start_load, lba_list_t.start_begin,
          lba_list_t.start_finish, lba_list_t.new, lba_list_t.memTable,
          in_memory_index_t.ofDisk]
    exact ⟨_, heq, fun b => hcopy b⟩

/-! Witnesses: each applies its claim theorem at a concrete input, discharging
the hypotheses there. -/

/-- Witness for C1 at a concrete run with a compaction triggered inside sync. -/
theorem claim1_witness :
    ∃ p, durability_run ⟨.state_ready, some in_memory_index_t.init,
        some lba_disk_structure_t.create, ⟨0, false, []⟩, []⟩
        [.set 0 100, .set 1 200, .del 0] true false true false = .ok p ∧
      ∀ b, p.2 b = p.1 b :=
  claim1_durability in_memory_index_t.init lba_disk_structure_t.create []
    [.set 0 100, .set 1 200, .del 0] true false true false lbaInv_init

/-- Witness for C2 at a concrete run: the overwrite of id 0 to offset 7 lands
in the new generation. -/
theorem claim2_witness :
    ∃ s1 s2 d2,
      lba_list_t.applyOps ⟨.state_ready, some in_memory_index_t.init,
        some lba_disk_structure_t.create, ⟨0, false, []⟩, []⟩
        [.set 0 100, .set 0 7] = .ok s1 ∧
      gc_complete s1 = .ok s2 ∧
      s2.disk_structure = some d2 ∧
      replayEntries d2.entries 0 = 7 ∧
      (0 < (applyIdx in_memory_index_t.init [.set 0 100, .set 0 7]).next_id →
        d2.entries[0]? = some (0, 7)) :=
  claim2_no_lost_updates in_memory_index_t.init lba_disk_structure_t.create []
    [.set 0 100, .set 0 7] 0 7 lbaInv_init (by decide)

/-- Witness for C6 at a concrete anchor holding one entry, asynchronous path. -/
theorem claim6_witness :
    (lba_list_t.start_begin ⟨.state_unstarted, none, none, ⟨0, false, []⟩, []⟩
        ⟨⟨[(0, 100)], 1⟩⟩).state = .state_starting_up ∧
    (∃ out, (lba_list_t.mk .state_unstarted none none ⟨0, false, []⟩ []).start_load
        ⟨⟨[(0, 100)], 1⟩⟩ false = .ok out ∧
      out.returned_done = false ∧
      out.cb_fired = !false ∧
      out.final.state = .state_ready ∧
      out.final.in_memory_index = some (in_memory_index_t.ofDisk ⟨[(0, 100)], 1⟩) ∧
      (∀ b, out.final.memTable b = replayEntries [(0, 100)] b)) ∧
    (∀ st, st ≠ .state_unstarted →
      (lba_list_t.mk st none none ⟨0, false, []⟩ []).start_load
        ⟨⟨[(0, 100)], 1⟩⟩ false = .error .assertFail) :=
  claim6_startup none none ⟨0, false, []⟩ [] ⟨⟨[(0, 100)], 1⟩⟩ false

/-- Witness for C7: downgrade succeeds with a queued reader (a waiting sync),
and assert-fails with a queued writer (a second queued compaction). -/
theorem claim7_witness :
    (∃ s2 t, gc_do_replace ⟨.state_ready, some in_memory_index_t.init,
        some lba_disk_structure_t.create, ⟨0, true, [.rwi_read]⟩, []⟩ = .ok (s2, t) ∧
      s2.disk_structure_lock = ⟨2, false, []⟩) ∧
    gc_do_replace ⟨.state_ready, some in_memory_index_t.init,
        some lba_disk_structure_t.create, ⟨0, true, [.rwi_write]⟩, []⟩ =
      .error .assertFail :=
  ⟨(claim7_downgrade in_memory_index_t.init lba_disk_structure_t.create []
      [.rwi_read]).1 (by decide),
   (claim7_downgrade in_memory_index_t.init lba_disk_structure_t.create []
      [.rwi_write]).2 (by decide)⟩

/-- Witness for C9 on a freshly-constructed directory (state unstarted, null
disk structure). -/
theorem claim9_witness :
    lba_list_t.new.prepare_metablock = .error .nullDeref ∧
    lba_list_t.new.gen_block_id = .error .assertFail ∧
    (∀ g1 g2 f, lba_list_t.new.sync g1 g2 f = .error .assertFail) ∧
    lba_list_t.new.shutdown = .error .assertFail :=
  ⟨(claim9_prepare_metablock_unchecked lba_list_t.new).2.1 rfl,
   ((claim9_prepare_metablock_unchecked lba_list_t.new).2.2 (by decide)).1,
   ((claim9_prepare_metablock_unchecked lba_list_t.new).2.2 (by decide)).2.2.2.2.2.1,
   ((claim9_prepare_metablock_unchecked lba_list_t.new).2.2 (by decide)).2.2.2.2.2.2⟩

/-- Witness for C10 on a fresh ready directory with a free lock. -/
theorem claim10_witness :
    ∃ s2, gc_complete ⟨.state_ready, some in_memory_index_t.init,
        some lba_disk_structure_t.create, ⟨0, false, []⟩, []⟩ = .ok s2 ∧
      s2.in_memory_index = some in_memory_index_t.init ∧
      s2.state = .state_ready ∧
      (∀ b, s2.get_block_offset b =
        (lba_list_t.mk .state_ready (some in_memory_index_t.init)
          (some lba_disk_structure_t.create) ⟨0, false, []⟩ []).get_block_offset b) ∧
      (∃ r1 r2, s2.gen_block_id = .ok r1 ∧
        (lba_list_t.mk .state_ready (some in_memory_index_t.init)
          (some lba_disk_structure_t.create) ⟨0, false, []⟩ []).gen_block_id = .ok r2 ∧
        r1.1 = r2.1) :=
  claim10_gc_frame in_memory_index_t.init lba_disk_structure_t.create []
    ⟨0, false, []⟩ (by decide)

end LbaSpec
